import Mathlib

/-!
Shallow embedding of `src/main.py` (Perfect5Bot) and verification of its
specification claims.

Modelling conventions:
* Python floats are modelled as `ℚ` (exact arithmetic over the same field
  operations the code performs).
* A price/indicator series (a pandas Series indexed 0,1,2,...) is modelled
  as a function `ℕ → ℚ`; where a length matters it is passed explicitly.
* The `atr` series consumed by `compute_supertrend` is produced by the
  external `ta` library (`AverageTrueRange`, not part of this repository),
  so the embedding takes it as a parameter, exactly as the recurrence in
  the loop body consumes it.
* Wall-clock instants are `ℤ` seconds; IST times-of-day are `ℕ` seconds
  since midnight; weekdays are `ℕ` with 0 = Monday as in Python.
-/

namespace Perfect5Bot

/-! ## Supertrend: `compute_supertrend` (src/main.py lines 196-235)

The Python loop mutates four aligned arrays cell by cell; each iteration
reads only the previous row's `final_upper`, `final_lower`, `sup`, `dirn`
and the current/previous bar, so the loop state is one `STRow` and the
whole loop is the recursion `st_rows`. -/

/-- One row of the Supertrend loop state: `final_upper`, `final_lower`,
`sup` and `dirn` at a given bar index. -/
structure STRow where
  fu : ℚ
  fl : ℚ
  sup : ℚ
  dirn : ℤ
deriving DecidableEq

/-- `hl2 = (df['high'] + df['low']) / 2.0`. -/
def hl2 (high low : ℕ → ℚ) (i : ℕ) : ℚ := (high i + low i) / 2

/-- `upper = hl2 + multiplier * atr` (the basic upper band). -/
def basic_upper (high low atr : ℕ → ℚ) (m : ℚ) (i : ℕ) : ℚ :=
  hl2 high low i + m * atr i

/-- `lower = hl2 - multiplier * atr` (the basic lower band). -/
def basic_lower (high low atr : ℕ → ℚ) (m : ℚ) (i : ℕ) : ℚ :=
  hl2 high low i - m * atr i

/-- The body of the `for i in range(len(df_local))` loop of
`compute_supertrend`, expressed as a recursion on the bar index carrying
the previous row.  At `i = 0` the code seeds
`final_upper[0] = upper[0]`, `final_lower[0] = lower[0]`,
`sup[0] = final_upper[0]`, `dirn[0] = 1`; at `i > 0` it computes the
final bands from the previous row and then applies the flip rule against
the previous bar's final bands. -/
def st_rows (high low close atr : ℕ → ℚ) (m : ℚ) : ℕ → STRow
  | 0 =>
    ⟨basic_upper high low atr m 0, basic_lower high low atr m 0,
     basic_upper high low atr m 0, 1⟩
  | i + 1 =>
    let prev := st_rows high low close atr m i
    let u := basic_upper high low atr m (i + 1)
    let l := basic_lower high low atr m (i + 1)
    let fu := if u < prev.fu ∨ close i > prev.fu then u else prev.fu
    let fl := if l > prev.fl ∨ close i < prev.fl then l else prev.fl
    if close (i + 1) > prev.fu then ⟨fu, fl, fl, 1⟩
    else if close (i + 1) < prev.fl then ⟨fu, fl, fu, -1⟩
    else ⟨fu, fl, prev.sup, prev.dirn⟩

/-- The `final_upper` series of `compute_supertrend`. -/
def final_upper (high low close atr : ℕ → ℚ) (m : ℚ) (i : ℕ) : ℚ :=
  (st_rows high low close atr m i).fu

/-- The `final_lower` series of `compute_supertrend`. -/
def final_lower (high low close atr : ℕ → ℚ) (m : ℚ) (i : ℕ) : ℚ :=
  (st_rows high low close atr m i).fl

/-- The `sup` series returned by `compute_supertrend`. -/
def supertrend (high low close atr : ℕ → ℚ) (m : ℚ) (i : ℕ) : ℚ :=
  (st_rows high low close atr m i).sup

/-- The `dirn` series returned by `compute_supertrend`. -/
def direction (high low close atr : ℕ → ℚ) (m : ℚ) (i : ℕ) : ℤ :=
  (st_rows high low close atr m i).dirn

/-- Unfolding of the `final_upper` update at `i > 0`. -/
lemma final_upper_succ (high low close atr : ℕ → ℚ) (m : ℚ) (i : ℕ) :
    final_upper high low close atr m (i + 1) =
      if basic_upper high low atr m (i + 1) < final_upper high low close atr m i ∨
          close i > final_upper high low close atr m i
      then basic_upper high low atr m (i + 1)
      else final_upper high low close atr m i := by
  simp only [final_upper, st_rows]
  split <;> split <;> rfl

/-- Unfolding of the `final_lower` update at `i > 0`. -/
lemma final_lower_succ (high low close atr : ℕ → ℚ) (m : ℚ) (i : ℕ) :
    final_lower high low close atr m (i + 1) =
      if basic_lower high low atr m (i + 1) > final_lower high low close atr m i ∨
          close i < final_lower high low close atr m i
      then basic_lower high low atr m (i + 1)
      else final_lower high low close atr m i := by
  simp only [final_lower, st_rows]
  split <;> split <;> rfl

/-- Unfolding of the `dirn` update at `i > 0`. -/
lemma direction_succ (high low close atr : ℕ → ℚ) (m : ℚ) (i : ℕ) :
    direction high low close atr m (i + 1) =
      if close (i + 1) > final_upper high low close atr m i then 1
      else if close (i + 1) < final_lower high low close atr m i then -1
      else direction high low close atr m i := by
  simp only [direction, final_upper, final_lower, st_rows]
  split <;> split <;> rfl

/-- Unfolding of the `sup` update at `i > 0`. -/
lemma supertrend_succ (high low close atr : ℕ → ℚ) (m : ℚ) (i : ℕ) :
    supertrend high low close atr m (i + 1) =
      if close (i + 1) > final_upper high low close atr m i then
        final_lower high low close atr m (i + 1)
      else if close (i + 1) < final_lower high low close atr m i then
        final_upper high low close atr m (i + 1)
      else supertrend high low close atr m i := by
  simp only [supertrend, final_upper, final_lower, st_rows]
  split <;> split <;> rfl

/-! ## String helpers

Python's `str.strip`, `str.upper`, `in`, `endswith`, `split(..., 1)` and
slicing, modelled directly on the character list of a `String` so that all
of them evaluate by kernel reduction. -/

/-- Python `s.strip()`: drop whitespace from both ends. -/
def py_strip (s : String) : String :=
  ⟨((s.data.dropWhile Char.isWhitespace).reverse.dropWhile Char.isWhitespace).reverse⟩

/-- Python `s.upper()` (ASCII upcasing, which is all the code relies on). -/
def py_upper (s : String) : String := ⟨s.data.map Char.toUpper⟩

/-- Python `c in s` for a single character `c`. -/
def py_contains (s : String) (c : Char) : Bool := s.data.contains c

/-- Python `s.endswith(t)`. -/
def py_endswith (s t : String) : Bool := t.data.isSuffixOf s.data

/-- Python `s[:-n]`. -/
def py_dropright (s : String) (n : ℕ) : String := ⟨s.data.take (s.data.length - n)⟩

/-- Left part of Python `s.split(c, 1)`: everything before the first `c`. -/
def py_split_left (s : String) (c : Char) : String :=
  ⟨s.data.takeWhile (fun d => ¬ d = c)⟩

/-- Right part of Python `s.split(c, 1)`: everything after the first `c`. -/
def py_split_right (s : String) (c : Char) : String :=
  ⟨(s.data.dropWhile (fun d => ¬ d = c)).drop 1⟩

/-- Python `s + t` on strings (used for the dedup key). -/
def py_concat (s t : String) : String := ⟨s.data ++ t.data⟩

/-! ## Symbol resolution: `parse_symbol` (src/main.py lines 159-168) -/

/-- `parse_symbol(raw)`: strip; empty maps to `("NSE", "")`; a `:` splits
venue (upper-cased, trimmed) from instrument (trimmed) at the first colon;
otherwise the `.NS`/`-NS` and `.BO`/`-BO` suffixes map to NSE/BSE with the
last three characters removed; otherwise the default `("NSE", s)`. -/
def parse_symbol (raw : String) : String × String :=
  let s := py_strip raw
  if s = "" then ("NSE", "")
  else if py_contains s ':' then
    (py_upper (py_strip (py_split_left s ':')), py_strip (py_split_right s ':'))
  else
    let up := py_upper s
    if py_endswith up ".NS" || py_endswith up "-NS" then ("NSE", py_dropright s 3)
    else if py_endswith up ".BO" || py_endswith up "-BO" then ("BSE", py_dropright s 3)
    else ("NSE", s)

/-- The fixed venue-code set named by the specification for substring
matching, in the order the specification lists it.  Modelled from the
spec: `parse_symbol` in the source has no substring-matching stage, so
this list and `spec_substring_venue` below transcribe the claimed
behaviour for comparison with the source function. -/
def SPEC_VENUE_CODES : List String :=
  ["NSE", "BSE", "MCX", "TVC", "INDEX", "OANDA", "CAPITALCOM", "IG",
   "SKILLING", "SPREADEX", "SZSE", "VANTAGE", "NSEIX"]

/-- `needle` occurs as a substring of `hay`. -/
def str_mem (needle hay : String) : Bool :=
  hay.data.tails.any (fun t => needle.data.isPrefixOf t)

/-- Modelled from the spec: the substring-matching venue resolution that
the claim attributes to the resolver — the first venue code of
`SPEC_VENUE_CODES` occurring as a substring of the raw string wins. -/
def spec_substring_venue (raw : String) : Option String :=
  SPEC_VENUE_CODES.find? (fun code => str_mem code raw)

/-! ## Market hours: `MARKET_TIMINGS` and `is_market_open`
(src/main.py lines 37-74)

Session times are minutes-resolution constants parsed by `strptime` from
literal `"HH:MM"` strings; they are embedded as seconds since midnight.
The current IST time-of-day is compared against them, so it is also a
seconds-since-midnight value here. -/

/-- One row of the `MARKET_TIMINGS` table: session start and end in
seconds since midnight IST, and the trading weekdays (0 = Monday). -/
structure Timing where
  startSec : ℕ
  endSec : ℕ
  days : List ℕ
deriving DecidableEq

/-- The `MARKET_TIMINGS` table, including its `"DEFAULT"` fallback row
(returned for any key not present, as `dict.get` does). -/
def MARKET_TIMINGS (ex : String) : Timing :=
  if ex = "NSE" then ⟨33300, 55800, [0, 1, 2, 3, 4]⟩
  else if ex = "BSE" then ⟨32400, 55800, [0, 1, 2, 3, 4]⟩
  else if ex = "MCX" then ⟨32400, 86100, [0, 1, 2, 3, 4]⟩
  else if ex = "IG" then ⟨0, 86340, [0, 1, 2, 3, 4]⟩
  else if ex = "CAPITALCOM" then ⟨0, 86340, [0, 1, 2, 3, 4]⟩
  else if ex = "SPREADEX" then ⟨0, 86340, [0, 1, 2, 3, 4]⟩
  else if ex = "TVC" then ⟨0, 86340, [0, 1, 2, 3, 4]⟩
  else if ex = "INDEX" then ⟨0, 86340, [0, 1, 2, 3, 4, 5, 6]⟩
  else if ex = "OANDA" then ⟨0, 86340, [0, 1, 2, 3, 4]⟩
  else if ex = "NSEIX" then ⟨0, 86340, [0, 1, 2, 3, 4]⟩
  else if ex = "SKILLING" then ⟨0, 86340, [0, 1, 2, 3, 4]⟩
  else if ex = "SZSE" then ⟨0, 86340, [0, 1, 2, 3, 4]⟩
  else if ex = "VANTAGE" then ⟨0, 86340, [0, 1, 2, 3, 4]⟩
  else ⟨32400, 61200, [0, 1, 2, 3, 4]⟩

/-- `is_market_open(exchange)` as a function of the current IST weekday
`day` (0 = Monday) and IST time-of-day `t` in seconds: closed when `day`
is not a trading day; otherwise a normal session (`start < end`) is the
closed interval `[start, end]`, and an overnight session wraps around
midnight (`t >= start or t <= end`). -/
def is_market_open (exchange : String) (day : ℕ) (t : ℕ) : Bool :=
  let tm := MARKET_TIMINGS (py_upper exchange)
  if ¬ tm.days.contains day then false
  else if tm.startSec < tm.endSec then
    decide (tm.startSec ≤ t) && decide (t ≤ tm.endSec)
  else
    decide (t ≥ tm.startSec) || decide (t ≤ tm.endSec)

/-! ## Venue fallback: `FALLBACK_EXCHANGES` and `try_get_hist`
(src/main.py lines 29 and 171-191)

The provider call `tvc.get_hist` is external; its outcome per venue
candidate is a parameter: it can raise (`exc`, with an abstract exception
identity), return `None` or an empty frame (`noData`), or return a
non-empty frame (`bars`).  `try_get_hist` returns the frame and the venue
that produced it, re-raising the last exception when every candidate
failed and at least one raised, and returning `(None, None)` when every
candidate failed without any raise. -/

/-- `FALLBACK_EXCHANGES` in source order. -/
def FALLBACK_EXCHANGES : List String :=
  ["NSE", "BSE", "MCX", "TVC", "INDEX", "OANDA", "SKILLING", "CAPITALCOM",
   "VANTAGE", "IG", "SPREADEX", "SZSE", "NSEIX"]

/-- Outcome of one `get_hist` call: an exception, no/empty data, or a
non-empty bar frame of type `α`. -/
inductive FetchResult (α : Type) where
  | exc (e : ℕ)
  | noData
  | bars (d : α)
deriving DecidableEq

/-- Whether a `FetchResult` is a non-empty frame
(`df is not None and not df.empty`). -/
def FetchResult.isBars {α : Type} : FetchResult α → Bool
  | .bars _ => true
  | _ => false

/-- The `tried` candidate list of `try_get_hist`: the primary exchange if
non-empty, then the fallback exchanges not already tried, then `None`. -/
def build_candidates (exchange : String) : List (Option String) :=
  let tried : List String := if exchange = "" then [] else [exchange]
  (tried ++ FALLBACK_EXCHANGES.filter (fun e => ! tried.contains e)).map some
    ++ [none]

/-- The candidate loop of `try_get_hist`, threading `last_exc`.  A
non-empty frame returns immediately with its venue; `noData` moves on;
an exception is remembered in `last_exc` and the loop moves on.  After
the loop, `raise last_exc` if any exception happened, else return
`(None, None)` (modelled as `.ok none`). -/
def try_get_hist_go {α : Type} (outcome : Option String → FetchResult α) :
    List (Option String) → Option ℕ → Except ℕ (Option (α × Option String))
  | [], none => .ok none
  | [], some e => .error e
  | c :: rest, lastExc =>
    match outcome c with
    | .bars d => .ok (some (d, c))
    | .noData => try_get_hist_go outcome rest lastExc
    | .exc e => try_get_hist_go outcome rest (some e)

/-- `try_get_hist(tvc, symbol, exchange, ...)` for a fixed symbol and
interval, as a function of the per-candidate outcome map. -/
def try_get_hist {α : Type} (outcome : Option String → FetchResult α)
    (exchange : String) : Except ℕ (Option (α × Option String)) :=
  try_get_hist_go outcome (build_candidates exchange) none

/-- The last exception produced across a candidate list, in order
(the value `last_exc` holds after the loop). -/
def last_exc_of {α : Type} (outcome : Option String → FetchResult α)
    (l : List (Option String)) : Option ℕ :=
  l.foldl (fun acc c => match outcome c with | .exc e => some e | _ => acc) none

/-! ## Deduplication: `last_signal_sent` (src/main.py lines 32, 306-312)

The global dict `last_signal_sent` maps a key string to the wall-clock
instant (seconds, `ℤ`) of the last recorded signal.  It is modelled as an
association list with first-match lookup and insert-at-front overwrite. -/

/-- The dedup cache type (the `last_signal_sent` dict). -/
abbrev DedupCache : Type := List (String × ℤ)

/-- Dict lookup: the recorded instant for `key`, if any. -/
def cache_lookup (c : DedupCache) (key : String) : Option ℤ :=
  (List.find? (fun p => p.1 = key) c).map (fun p => p.2)

/-- Dict assignment `last_signal_sent[key] = now`: overwrite the entry. -/
def cache_record (c : DedupCache) (key : String) (now : ℤ) : DedupCache :=
  (key, now) :: List.filter (fun p => ¬ p.1 = key) c

/-- The duplicate filter of `calculate_signals`: suppress when a prior
instant exists for `key` and `(now - last).total_seconds() < 25 * 60`. -/
def dup_suppressed (c : DedupCache) (key : String) (now : ℤ) : Bool :=
  match cache_lookup c key with
  | some t0 => decide (now - t0 < 25 * 60)
  | none => false

/-! ## Signal conditions and the scan pipeline: `calculate_signals`
(src/main.py lines 240-344)

The merged 5-minute frame (closes from the 5-minute bars; `ema20`,
`supertrend`, `atr` step-held from the 30-minute frame by `merge_asof`)
is abstracted as four aligned series with a length.  The two
`try_get_hist` calls and the merge are performed by external collaborators
(provider + pandas), so their combined outcome is a parameter of the
pipeline environment. -/

/-- The merged 5-minute frame: length and the four aligned columns. -/
structure FrameData where
  n : ℕ
  close : ℕ → ℚ
  ema : ℕ → ℚ
  st : ℕ → ℚ
  atr : ℕ → ℚ

/-- `buy` at bar `i` (the code evaluates it at `i = n - 1` with the
previous bar `i - 1`): close above EMA and Supertrend now, and not both
above on the previous bar. -/
def buy_sig (close ema st : ℕ → ℚ) (i : ℕ) : Bool :=
  decide (close i > ema i) && decide (close i > st i) &&
    !(decide (close (i - 1) > ema (i - 1)) && decide (close (i - 1) > st (i - 1)))

/-- `sell` at bar `i`, the mirror of `buy_sig`. -/
def sell_sig (close ema st : ℕ → ℚ) (i : ℕ) : Bool :=
  decide (close i < ema i) && decide (close i < st i) &&
    !(decide (close (i - 1) < ema (i - 1)) && decide (close (i - 1) < st (i - 1)))

/-- Signal direction. -/
inductive Direction where
  | buy
  | sell
deriving DecidableEq

/-- The detection step of `calculate_signals`: the `buy`/`sell` booleans
are evaluated only at the latest merged bar `n - 1` (with `n - 2` as the
previous bar); `buy` is checked before `sell`. -/
def detect_last_bar (d : FrameData) : Option Direction :=
  if buy_sig d.close d.ema d.st (d.n - 1) then some .buy
  else if sell_sig d.close d.ema d.st (d.n - 1) then some .sell
  else none

/-- Modelled from the spec: the backward scan the claim describes —
examine up to `w` bars ending at index `i`, most recent first, stopping
at the first bar (of index at least 1) where `buy` or `sell` holds and
returning its index and direction. -/
def spec_scan (close ema st : ℕ → ℚ) : ℕ → ℕ → Option (ℕ × Direction)
  | _, 0 => none
  | 0, _ + 1 => none
  | i + 1, w + 1 =>
    if buy_sig close ema st (i + 1) then some (i + 1, .buy)
    else if sell_sig close ema st (i + 1) then some (i + 1, .sell)
    else spec_scan close ema st i w

/-- Modelled from the spec: scan the last `w` bars of an `n`-bar frame
from the most recent bar backward. -/
def spec_detect (close ema st : ℕ → ℚ) (n w : ℕ) : Option (ℕ × Direction) :=
  spec_scan close ema st (n - 1) w

/-- The combined outcome of the two `try_get_hist` calls plus the merge:
either some call raised (caught by the outer handler of
`calculate_signals`), or a frame was empty/`None`, or the merged frame and
the effective venue `used_ex` of the 5-minute fetch are available. -/
inductive FetchOut where
  | raised
  | noData
  | frames (d : FrameData) (usedEx : Option String)

/-- Everything external that one `calculate_signals` call observes:
the IST weekday and time-of-day of the scan instant, the wall-clock
instant used by the duplicate filter, and the data-fetch outcome. -/
structure ScanEnv where
  day : ℕ
  timeSec : ℕ
  now : ℤ
  fetch : FetchOut

/-- One emitted alert: dedup/display key, direction, price (last close),
take-profit and stop-loss. -/
structure Alert where
  key : String
  dir : Direction
  price : ℚ
  tp : ℚ
  sl : ℚ
deriving DecidableEq

/-- The observable result of one `calculate_signals` call: whether the
data fetch was reached, the alert sent (if any), and the dedup cache
afterwards. -/
structure ScanResult where
  fetchAttempted : Bool
  alert : Option Alert
  cache : DedupCache

/-- `calculate_signals(raw_symbol)` over the embedded environment, in
source order: parse the symbol (`ex_token or "NSE"`, re-stripped
instrument), return on an empty instrument, return on a closed market
(before any fetch), return if the fetch raised (outer handler) or
produced no data or fewer than 10 merged rows, evaluate `buy`/`sell` at
the latest bar, return if neither holds, apply the duplicate filter,
record the send instant, and emit the alert with
`tp = close ± atr * 4.5`, `sl = close ∓ atr * 1.5`. -/
def calculate_signals (raw : String) (env : ScanEnv) (cache : DedupCache) :
    ScanResult :=
  let p := parse_symbol raw
  let ex := if p.1 = "" then "NSE" else p.1
  let sym := py_strip p.2
  if sym = "" then ⟨false, none, cache⟩
  else if ¬ is_market_open ex env.day env.timeSec then ⟨false, none, cache⟩
  else
    match env.fetch with
    | .raised => ⟨true, none, cache⟩
    | .noData => ⟨true, none, cache⟩
    | .frames d usedEx =>
      if d.n < 10 then ⟨true, none, cache⟩
      else
        let key := py_concat (py_concat (usedEx.getD ex) ":") sym
        match detect_last_bar d with
        | none => ⟨true, none, cache⟩
        | some dir =>
          if dup_suppressed cache key env.now then ⟨true, none, cache⟩
          else
            let cache' := cache_record cache key env.now
            let c := d.close (d.n - 1)
            let a := d.atr (d.n - 1)
            match dir with
            | .buy => ⟨true, some ⟨key, .buy, c, c + a * (9 / 2), c - a * (3 / 2)⟩, cache'⟩
            | .sell => ⟨true, some ⟨key, .sell, c, c - a * (9 / 2), c + a * (3 / 2)⟩, cache'⟩

/-! ## Claim theorems -/

/-- C1: For every bar series and every index `i > 0`, the Supertrend
recurrence updates the final bands and direction exactly as specified:
`finalUpper[i]` is `basicUpper[i]` if `basicUpper[i] < finalUpper[i-1]`
or `close[i-1] > finalUpper[i-1]`, else `finalUpper[i-1]` (symmetric with
opposite comparisons for `finalLower`); and the flip test uses the
previous bar's final bands: `close[i] > finalUpper[i-1]` gives direction
`+1` with `supertrend[i] = finalLower[i]`, else `close[i] <
finalLower[i-1]` gives `-1` with `supertrend[i] = finalUpper[i]`, else
direction and supertrend persist from `i - 1`. -/
theorem supertrend_recurrence (high low close atr : ℕ → ℚ) (m : ℚ) (i : ℕ) :
    (final_upper high low close atr m (i + 1) =
      if basic_upper high low atr m (i + 1) < final_upper high low close atr m i ∨
          close i > final_upper high low close atr m i
      then basic_upper high low atr m (i + 1)
      else final_upper high low close atr m i) ∧
    (final_lower high low close atr m (i + 1) =
      if basic_lower high low atr m (i + 1) > final_lower high low close atr m i ∨
          close i < final_lower high low close atr m i
      then basic_lower high low atr m (i + 1)
      else final_lower high low close atr m i) ∧
    (direction high low close atr m (i + 1) =
      if close (i + 1) > final_upper high low close atr m i then 1
      else if close (i + 1) < final_lower high low close atr m i then -1
      else direction high low close atr m i) ∧
    (supertrend high low close atr m (i + 1) =
      if close (i + 1) > final_upper high low close atr m i then
        final_lower high low close atr m (i + 1)
      else if close (i + 1) < final_lower high low close atr m i then
        final_upper high low close atr m (i + 1)
      else supertrend high low close atr m i) :=
  ⟨final_upper_succ high low close atr m i, final_lower_succ high low close atr m i,
   direction_succ high low close atr m i, supertrend_succ high low close atr m i⟩

/-- C7: For every bar series, the Supertrend output at index 0 satisfies
`direction[0] = +1` and `supertrend[0] = basicUpper[0]`, with the seed
convention `finalUpper[0] = basicUpper[0]` and
`finalLower[0] = basicLower[0]`. -/
theorem supertrend_seed (high low close atr : ℕ → ℚ) (m : ℚ) :
    direction high low close atr m 0 = 1 ∧
    supertrend high low close atr m 0 = basic_upper high low atr m 0 ∧
    final_upper high low close atr m 0 = basic_upper high low atr m 0 ∧
    final_lower high low close atr m 0 = basic_lower high low atr m 0 :=
  ⟨rfl, rfl, rfl, rfl⟩

/-- C8: For every bar series and index `i > 0`, if
`basicUpper[i] ≥ finalUpper[i-1]` and `close[i-1] ≤ finalUpper[i-1]` then
`finalUpper[i] ≤ finalUpper[i-1]`: the final upper band never widens
except when a strictly lower basic band is adopted. -/
theorem supertrend_band_no_widen (high low close atr : ℕ → ℚ) (m : ℚ) (i : ℕ)
    (h1 : basic_upper high low atr m (i + 1) ≥ final_upper high low close atr m i)
    (h2 : close i ≤ final_upper high low close atr m i) :
    final_upper high low close atr m (i + 1) ≤ final_upper high low close atr m i := by
  have hcond : ¬ (basic_upper high low atr m (i + 1) <
      final_upper high low close atr m i ∨
      close i > final_upper high low close atr m i) := by
    push_neg
    exact ⟨h1, h2⟩
  rw [final_upper_succ, if_neg hcond]

/-- A constant example bar series: high 10, low 0, close 5, ATR 1. -/
def exHigh : ℕ → ℚ := fun _ => 10

/-- Example series: constant low 0. -/
def exLow : ℕ → ℚ := fun _ => 0

/-- Example series: constant close 5. -/
def exClose : ℕ → ℚ := fun _ => 5

/-- Example series: constant ATR 1. -/
def exAtr : ℕ → ℚ := fun _ => 1

/-- Witness for C8 at the constant example series with multiplier 3:
both hypotheses hold at `i = 0` (both sides are 8) and the band does not
widen. -/
theorem supertrend_band_no_widen_witness :
    final_upper exHigh exLow exClose exAtr 3 1 ≤
      final_upper exHigh exLow exClose exAtr 3 0 :=
  supertrend_band_no_widen exHigh exLow exClose exAtr 3 0
    (by norm_num [basic_upper, final_upper, st_rows, hl2, exHigh, exLow, exAtr])
    (by norm_num [final_upper, st_rows, basic_upper, hl2, exHigh, exLow, exClose, exAtr])

/-- C9 counterexample: `"XXOANDAYY"` has no colon and no recognized
suffix, and the venue code `OANDA` (and no earlier code of the
specification's set) occurs in it as a substring, so the claimed
substring matching would resolve it to venue `OANDA` with the full raw
string as instrument — but `parse_symbol` returns the default venue
`NSE`: the source has no substring-matching stage. -/
theorem parse_symbol_no_substring_cex :
    py_contains "XXOANDAYY" ':' = false ∧
    py_endswith (py_upper "XXOANDAYY") ".NS" = false ∧
    py_endswith (py_upper "XXOANDAYY") "-NS" = false ∧
    py_endswith (py_upper "XXOANDAYY") ".BO" = false ∧
    py_endswith (py_upper "XXOANDAYY") "-BO" = false ∧
    spec_substring_venue "XXOANDAYY" = some "OANDA" ∧
    parse_symbol "XXOANDAYY" = ("NSE", "XXOANDAYY") ∧
    ("NSE" : String) ≠ "OANDA" := by
  refine ⟨?_, ?_, ?_, ?_, ?_, ?_, ?_, ?_⟩ <;> decide

/-- C9 amended: for every raw watch-list string with no `:` separator and
no recognized `.NS`/`-NS`/`.BO`/`-BO` suffix, `parse_symbol` performs no
substring matching at all and always falls back to the default venue
`NSE`, retaining the (stripped) raw string as the instrument. -/
theorem parse_symbol_default_venue (s : String)
    (hs : py_strip s = s) (h0 : s ≠ "")
    (hc : py_contains s ':' = false)
    (h1 : py_endswith (py_upper s) ".NS" = false)
    (h2 : py_endswith (py_upper s) "-NS" = false)
    (h3 : py_endswith (py_upper s) ".BO" = false)
    (h4 : py_endswith (py_upper s) "-BO" = false) :
    parse_symbol s = ("NSE", s) := by
  simp only [parse_symbol, hs, h0, hc, h1, h2, h3, h4, if_false, if_neg h0,
    Bool.false_eq_true, Bool.or_self, if_neg (Bool.false_ne_true)]

/-- Witness for C9 amended at `"TCS"`: no colon, no suffix, resolves to
`("NSE", "TCS")`. -/
theorem parse_symbol_default_venue_witness :
    parse_symbol "TCS" = ("NSE", "TCS") :=
  parse_symbol_default_venue "TCS" (by decide) (by decide) (by decide)
    (by decide) (by decide) (by decide) (by decide)

/-- C6: for any cache state, once a signal is recorded for `key` at
instant `t0`, a detection strictly less than 25 minutes later is
suppressed by the duplicate filter (for the shared key, which carries no
direction component), a detection 25 minutes or more later is not
suppressed, and the recording overwrote the entry for `key`
unconditionally (the lookup now yields `t0`). -/
theorem dedup_cooldown (cache : DedupCache) (key : String) (t0 now : ℤ) :
    (now - t0 < 25 * 60 →
      dup_suppressed (cache_record cache key t0) key now = true) ∧
    (25 * 60 ≤ now - t0 →
      dup_suppressed (cache_record cache key t0) key now = false) ∧
    cache_lookup (cache_record cache key t0) key = some t0 := by
  have hl : cache_lookup (cache_record cache key t0) key = some t0 := by
    simp [cache_lookup, cache_record, List.find?]
  refine ⟨?_, ?_, hl⟩
  · intro h
    simp only [dup_suppressed, hl, decide_eq_true_eq]
    omega
  · intro h
    simp only [dup_suppressed, hl, decide_eq_false_iff_not, not_lt]
    omega

/-- Witness for C6: an empty cache, a recording at instant 0, a
detection at 600 s (suppressed) and one at 1500 s (emitted). -/
theorem dedup_cooldown_witness :
    dup_suppressed (cache_record [] "NSE:TCS" 0) "NSE:TCS" 600 = true ∧
    dup_suppressed (cache_record [] "NSE:TCS" 0) "NSE:TCS" 1500 = false :=
  ⟨(dedup_cooldown [] "NSE:TCS" 0 600).1 (by norm_num),
   (dedup_cooldown [] "NSE:TCS" 0 1500).2.1 (by norm_num)⟩

/-- When every candidate in a list fails (no candidate yields a non-empty
frame), the `try_get_hist` loop runs to the end and the result is decided
by the accumulated last exception. -/
lemma try_get_hist_go_all_fail {α : Type} (outcome : Option String → FetchResult α) :
    ∀ (l : List (Option String)) (acc : Option ℕ),
      (∀ c ∈ l, (outcome c).isBars = false) →
      try_get_hist_go outcome l acc =
        match l.foldl
            (fun acc c => match outcome c with | .exc e => some e | _ => acc) acc with
        | some e => .error e
        | none => .ok none
  | [], none, _ => rfl
  | [], some _, _ => rfl
  | c :: rest, acc, h => by
    have hc := h c (List.mem_cons_self c rest)
    have hrest : ∀ x ∈ rest, (outcome x).isBars = false :=
      fun x hx => h x (List.mem_cons_of_mem c hx)
    cases hoc : outcome c with
    | bars d => rw [hoc] at hc; exact absurd hc (by simp [FetchResult.isBars])
    | noData =>
      simp only [try_get_hist_go, hoc, List.foldl_cons]
      exact try_get_hist_go_all_fail outcome rest acc hrest
    | exc e =>
      simp only [try_get_hist_go, hoc, List.foldl_cons]
      exact try_get_hist_go_all_fail outcome rest (some e) hrest

/-- C4 counterexample: when every venue candidate raises a provider
error, `try_get_hist` does not report not-found — it re-raises the last
exception into the caller's control flow. -/
theorem try_get_hist_raises_cex :
    try_get_hist (fun _ => (FetchResult.exc 7 : FetchResult ℕ)) "NSE" =
      .error 7 ∧
    (Except.error 7 : Except ℕ (Option (ℕ × Option String))) ≠ .ok none :=
  ⟨rfl, fun h => Except.noConfusion h⟩

/-- C4 amended: per-venue failures are swallowed while the loop advances;
when every candidate fails, `try_get_hist` returns `(None, None)` only
when no candidate raised — if any candidate raised, the last such
exception is re-raised to the caller (where the caller's own handler
catches and logs it). -/
theorem try_get_hist_all_fail {α : Type}
    (outcome : Option String → FetchResult α) (exchange : String)
    (h : ∀ c ∈ build_candidates exchange, (outcome c).isBars = false) :
    try_get_hist outcome exchange =
      match last_exc_of outcome (build_candidates exchange) with
      | some e => .error e
      | none => .ok none :=
  try_get_hist_go_all_fail outcome (build_candidates exchange) none h

/-- Example outcome map for C4: `BSE` raises exception 3, every other
candidate returns no data. -/
def exOutcome4 : Option String → FetchResult ℕ :=
  fun c => if c = some "BSE" then .exc 3 else .noData

/-- Witness for C4 amended: with one raising candidate and the rest
empty, the fetcher re-raises that exception. -/
theorem try_get_hist_all_fail_witness :
    try_get_hist exOutcome4 "NSE" = .error 3 :=
  try_get_hist_all_fail exOutcome4 "NSE" (by decide)

/-- The `try_get_hist` loop returns the frame and venue of the first
candidate whose outcome is a non-empty frame, never reaching later
candidates. -/
lemma try_get_hist_go_find {α : Type} (outcome : Option String → FetchResult α) :
    ∀ (l : List (Option String)) (acc : Option ℕ) (c : Option String) (d : α),
      l.find? (fun x => (outcome x).isBars) = some c → outcome c = .bars d →
      try_get_hist_go outcome l acc = .ok (some (d, c))
  | [], _, _, _, hfind, _ => by simp at hfind
  | x :: rest, acc, c, d, hfind, hd => by
    cases hox : outcome x with
    | bars d' =>
      simp only [List.find?_cons, hox, FetchResult.isBars] at hfind
      obtain rfl : x = c := by injection hfind
      rw [hox] at hd
      obtain rfl : d' = d := by injection hd
      simp only [try_get_hist_go, hox]
    | noData =>
      simp only [List.find?_cons, hox, FetchResult.isBars] at hfind
      simp only [try_get_hist_go, hox]
      exact try_get_hist_go_find outcome rest acc c d hfind hd
    | exc e =>
      simp only [List.find?_cons, hox, FetchResult.isBars] at hfind
      simp only [try_get_hist_go, hox]
      exact try_get_hist_go_find outcome rest (some e) c d hfind hd

/-- C5: for a fixed outcome map, `try_get_hist` tries candidates in
exactly the declared order — the primary venue first, then the fallback
list with duplicates of the primary removed, then a final no-venue
attempt — and returns the frame and venue of the first candidate whose
outcome is a non-empty frame. -/
theorem try_get_hist_first_success {α : Type}
    (outcome : Option String → FetchResult α) (exchange : String)
    (hx : exchange ≠ "") (c : Option String) (d : α)
    (hfind : (build_candidates exchange).find? (fun x => (outcome x).isBars) = some c)
    (hd : outcome c = .bars d) :
    build_candidates exchange =
      (some exchange ::
        (FALLBACK_EXCHANGES.filter (fun e => decide (e ≠ exchange))).map some)
      ++ [none] ∧
    try_get_hist outcome exchange = .ok (some (d, c)) := by
  constructor
  · simp only [build_candidates, if_neg hx]
    have hpred : ∀ e ∈ FALLBACK_EXCHANGES,
        (! [exchange].contains e) = decide (e ≠ exchange) := by
      intro e _
      by_cases he : e = exchange <;> simp [he]
    rw [List.filter_congr hpred]
    simp
  · exact try_get_hist_go_find outcome (build_candidates exchange) none c d hfind hd

/-- Example outcome map for C5: `BSE` returns a non-empty frame (7),
every other candidate returns no data. -/
def exOutcome5 : Option String → FetchResult ℕ :=
  fun c => if c = some "BSE" then .bars 7 else .noData

/-- Witness for C5: primary `NSE` empty, `BSE` is the first fallback
with data, so the fetcher returns frame 7 with venue `BSE`. -/
theorem try_get_hist_first_success_witness :
    try_get_hist exOutcome5 "NSE" = .ok (some (7, some "BSE")) :=
  (try_get_hist_first_success exOutcome5 "NSE" (by decide) (some "BSE") 7
    (by decide) (by decide)).2

/-- Example merged frame for C2: EMA and Supertrend constant at 5; the
close steps up to 10 at bar 8 and stays there, so the buy edge fires at
bar 8 and no edge fires at the latest bar 9. -/
def exFrameEdge : FrameData :=
  ⟨10, fun i => if 8 ≤ i then 10 else 1, fun _ => 5, fun _ => 5, fun _ => 2⟩

/-- Example environment for C2: Monday 10:00 IST, instant 0, with the
merged frame `exFrameEdge` fetched on the primary venue. -/
def exEnvEdge : ScanEnv := ⟨0, 36000, 0, .frames exFrameEdge none⟩

/-- C2 counterexample: in `exFrameEdge`, a qualifying buy edge exists at
bar 8 inside the look-back window (the claimed backward scan over the
last 10 bars returns it), yet the pipeline emits nothing: the code
evaluates the conditions only at the latest bar. -/
theorem detect_window_cex :
    (calculate_signals "NSE:TCS" exEnvEdge []).alert = none ∧
    buy_sig exFrameEdge.close exFrameEdge.ema exFrameEdge.st 8 = true ∧
    spec_detect exFrameEdge.close exFrameEdge.ema exFrameEdge.st exFrameEdge.n 10 =
      some (8, .buy) := by
  refine ⟨?_, ?_, ?_⟩ <;> decide

/-- C2 amended: the detector examines only the temporally latest bar
`n - 1` (with `n - 2` as the previous bar of the edge test): its result
coincides with the claimed backward scan restricted to a window of a
single bar, and bars earlier in the window are never examined. -/
theorem detect_only_last_bar (d : FrameData) (h : 2 ≤ d.n) :
    detect_last_bar d =
      (spec_detect d.close d.ema d.st d.n 1).map (fun p => p.2) := by
  obtain ⟨k, hk⟩ : ∃ k, d.n = k + 2 := ⟨d.n - 2, by omega⟩
  simp only [detect_last_bar, spec_detect, hk]
  have h1 : k + 2 - 1 = k + 1 := rfl
  rw [h1]
  simp only [spec_scan]
  by_cases hb : buy_sig d.close d.ema d.st (k + 1)
  · simp [hb]
  · by_cases hs : sell_sig d.close d.ema d.st (k + 1)
    · simp [hb, hs]
    · simp [hb, hs, spec_scan]

/-- Witness for C2 amended at a concrete frame of 10 bars. -/
theorem detect_only_last_bar_witness :
    detect_last_bar exFrameEdge =
      (spec_detect exFrameEdge.close exFrameEdge.ema exFrameEdge.st
        exFrameEdge.n 1).map (fun p => p.2) :=
  detect_only_last_bar exFrameEdge (by decide)

/-- Example merged frame for C3: EMA and Supertrend constant at 5, ATR
constant at 2; the close is 1 except at the latest bar 9, where it is 10,
so the buy edge fires at bar 9. -/
def exFrameBuy : FrameData :=
  ⟨10, fun i => if i = 9 then 10 else 1, fun _ => 5, fun _ => 5, fun _ => 2⟩

/-- Example environment for C3: Monday 10:00 IST, instant 0, with the
merged frame `exFrameBuy` fetched on the primary venue. -/
def exEnvBuy : ScanEnv := ⟨0, 36000, 0, .frames exFrameBuy none⟩

/-- The alert `calculate_signals` emits for `exEnvBuy`. -/
def exAlertBuy : Alert :=
  ⟨"NSE:TCS", .buy, 10, 10 + 2 * (9 / 2), 10 - 2 * (3 / 2)⟩

/-- C3 counterexample: the emitted BUY alert for `exEnvBuy` has
`takeProfit = close + atr * 4.5` (= 19), which differs from the claimed
`close + atr * 3.0` (= 16). -/
theorem tp_multiple_cex :
    (calculate_signals "NSE:TCS" exEnvBuy []).alert = some exAlertBuy ∧
    exAlertBuy.tp ≠ exAlertBuy.price + 2 * 3 := by
  constructor
  · rfl
  · simp only [exAlertBuy]
    norm_num

/-- C3 amended: for every emitted BUY alert, `takeProfit = close[i] +
atr[i] * 4.5` and `stopLoss = close[i] - atr[i] * 1.5`; for a SELL alert
the signs are mirrored (`takeProfit = close[i] - atr[i] * 4.5`,
`stopLoss = close[i] + atr[i] * 1.5`); these multiples are fixed
constants, with the price being the latest merged close. -/
theorem tp_sl_multiples (raw : String) (env : ScanEnv) (cache : DedupCache)
    (d : FrameData) (u : Option String) (a : Alert)
    (hf : env.fetch = .frames d u)
    (ha : (calculate_signals raw env cache).alert = some a) :
    a.price = d.close (d.n - 1) ∧
    (a.dir = .buy → a.tp = a.price + d.atr (d.n - 1) * (9 / 2) ∧
      a.sl = a.price - d.atr (d.n - 1) * (3 / 2)) ∧
    (a.dir = .sell → a.tp = a.price - d.atr (d.n - 1) * (9 / 2) ∧
      a.sl = a.price + d.atr (d.n - 1) * (3 / 2)) := by
  simp only [calculate_signals, hf] at ha
  set ex := if (parse_symbol raw).1 = "" then "NSE" else (parse_symbol raw).1 with hex
  split at ha
  · simp at ha
  · split at ha
    · simp at ha
    · split at ha
      · simp at ha
      · split at ha
        · simp at ha
        · split at ha
          · simp at ha
          · split at ha
            · simp only [Option.some.injEq] at ha
              subst ha
              exact ⟨rfl, fun _ => ⟨rfl, rfl⟩, fun hcon => Direction.noConfusion hcon⟩
            · simp only [Option.some.injEq] at ha
              subst ha
              exact ⟨rfl, fun hcon => Direction.noConfusion hcon, fun _ => ⟨rfl, rfl⟩⟩

/-- Witness for C3 amended at the concrete BUY emission of `exEnvBuy`. -/
theorem tp_sl_multiples_witness :
    exAlertBuy.tp = exAlertBuy.price + exFrameBuy.atr (exFrameBuy.n - 1) * (9 / 2) ∧
    exAlertBuy.sl = exAlertBuy.price - exFrameBuy.atr (exFrameBuy.n - 1) * (3 / 2) :=
  (tp_sl_multiples "NSE:TCS" exEnvBuy [] exFrameBuy none exAlertBuy rfl rfl).2.1 rfl

/-- The venue `calculate_signals` resolves for a raw watch-list entry:
`parse_symbol`'s venue, defaulting to `NSE` when empty. -/
def resolved_ex (raw : String) : String :=
  if (parse_symbol raw).1 = "" then "NSE" else (parse_symbol raw).1

/-- C10: whenever the resolved venue's market is closed at scan time
according to the `MARKET_TIMINGS` table (IST weekday and time-of-day,
wrap-around sessions included in `is_market_open`), the per-instrument
scan returns before any data fetch, emits no alert, and leaves the dedup
cache unchanged. -/
theorem market_closed_skips (raw : String) (env : ScanEnv) (cache : DedupCache)
    (h : is_market_open (resolved_ex raw) env.day env.timeSec = false) :
    calculate_signals raw env cache = ⟨false, none, cache⟩ := by
  simp only [resolved_ex] at h
  simp only [calculate_signals]
  split
  · rfl
  · have hcond : ¬ is_market_open
        (if (parse_symbol raw).1 = "" then "NSE" else (parse_symbol raw).1)
        env.day env.timeSec = true := by
      simp [h]
    rw [if_pos hcond]

/-- Example environment for C10: Sunday (weekday 6) 10:00 IST — NSE
trades Monday to Friday, so the market is closed. -/
def exEnvClosed : ScanEnv := ⟨6, 36000, 0, .noData⟩

/-- Witness for C10: on a Sunday the NSE instrument is skipped with no
fetch, no alert, and an unchanged cache. -/
theorem market_closed_skips_witness :
    calculate_signals "NSE:TCS" exEnvClosed [] = ⟨false, none, []⟩ :=
  market_closed_skips "NSE:TCS" exEnvClosed [] (by decide)

end Perfect5Bot
